import Mathlib

/-!
Verification development for the github-commit-status-mark CLI.

The Go program is shallowly embedded: pure fragments become Lean functions,
process effects (reading the cache file, querying the remote status API,
consulting git) become explicit inputs, and the single run of `main` becomes
a pure function from those inputs to a record of its observable outcome
(what is printed, the exit code, whether the remote API was consulted, and
what state is saved back to the cache file).  Machine integers (Unix
timestamps, `time.Duration` in whole seconds) are modelled as `Int`; they
are nowhere near overflow in the source's domain.
-/

/-- Commit status constants (source: `statusUnknown` .. `statusSuccess`).
The unknown status is the empty string, matching the Go source. -/
def statusUnknown : String := ""

/-- Commit status constant for a failed build. -/
def statusFailure : String := "failure"

/-- Commit status constant for a pending build. -/
def statusPending : String := "pending"

/-- Commit status constant for a successful build. -/
def statusSuccess : String := "success"

/-- Terminal colors used by the status table (go-colortext's `ct.Color`). -/
inductive Color where
  | none
  | red
  | yellow
  | green
deriving DecidableEq

/-- The sentinel duration meaning "cache forever"
(source: `const forever = time.Duration(-1)`).
Durations are modelled in whole seconds. -/
def forever : Int := -1

/-- One row of the status table: display mark, display color, cache TTL. -/
structure StatusConf where
  mark : String
  color : Color
  cacheFor : Int
deriving DecidableEq

/-- The status table (source: the `statusConfiguration` map literal).
A Go map lookup yields `(value, ok)`; modelled as `Option`. -/
def statusConfiguration (status : String) : Option StatusConf :=
  if status = statusUnknown then some ⟨"?", Color.none, 30⟩
  else if status = statusFailure then some ⟨"✗", Color.red, forever⟩
  else if status = statusPending then some ⟨"●", Color.yellow, 10⟩
  else if status = statusSuccess then some ⟨"✓", Color.green, forever⟩
  else none

/-- Table lookup with fallback to the unknown policy (source:
`conf, ok := statusConfiguration[s]; if !ok { conf = statusConfiguration[statusUnknown] }`).
The final arm is Go's zero value for the (unreachable) case that even the
unknown key were missing. -/
def statusConfOf (status : String) : StatusConf :=
  match statusConfiguration status with
  | some conf => conf
  | Option.none =>
    match statusConfiguration statusUnknown with
    | some conf => conf
    | Option.none => ⟨"", Color.none, 0⟩

/-- One cached record (source: `type revisionEntry struct`).
`LastModified` is a Unix timestamp in seconds. -/
structure revisionEntry where
  Status : String
  LastModified : Int
deriving DecidableEq

/-- The persisted cache (source: `type persistentState struct`).
`Revisions` is a Go map that may be `nil`, modelled as an optional
association list with unique keys. -/
structure persistentState where
  Revisions : Option (List (String × revisionEntry))
deriving DecidableEq

/-- Go map read `state.Revisions[rev]`: a missing key (or a `nil` map)
yields the zero value `{Status: "", LastModified: 0}`. -/
def lookupRevision (m : Option (List (String × revisionEntry))) (k : String) : revisionEntry :=
  match m with
  | Option.none => ⟨"", 0⟩
  | some l =>
    match l.lookup k with
    | some e => e
    | Option.none => ⟨"", 0⟩

/-- Go map write `m[rev] = v`: replace the entry if the key is present,
append it otherwise. -/
def insertRevision (l : List (String × revisionEntry)) (k : String) (v : revisionEntry) :
    List (String × revisionEntry) :=
  match l with
  | [] => [(k, v)]
  | (k', v') :: rest => if k' = k then (k, v) :: rest else (k', v') :: insertRevision rest k v

/-- The map the program writes into (source:
`if state.Revisions == nil { state.Revisions = map[string]revisionEntry{} }`). -/
def revisionsList (state : persistentState) : List (String × revisionEntry) :=
  match state.Revisions with
  | Option.none => []
  | some l => l

/-- Cache validity check (source: `main`, the expression
`exp == forever || time.Now().Before(time.Unix(e.LastModified, 0).Add(exp))`,
with `conf` looked up through the unknown-status fallback).
`now` is the current Unix time in seconds; `Before` is a strict comparison. -/
def isValid (entry : revisionEntry) (now : Int) : Bool :=
  let conf := statusConfOf entry.Status
  decide (conf.cacheFor = forever) || decide (now < entry.LastModified + conf.cacheFor)

/-- Character class of Go's RE2 `[\w+]`: word characters (ASCII letters,
digits, underscore) plus the literal `+`. -/
def isWordPlusChar (c : Char) : Bool :=
  c.isAlphanum || c = '_' || c = '+'

/-- Maximal leading run of `[\w+]` characters, and the remainder. -/
def takeWordRun : List Char → List Char × List Char
  | [] => ([], [])
  | c :: cs =>
    if isWordPlusChar c then
      let p := takeWordRun cs
      (c :: p.1, p.2)
    else ([], c :: cs)

/-- The characters of `"https://"`. -/
def httpsChars : List Char := ['h', 't', 't', 'p', 's', ':', '/', '/']

/-- Source: `reScheme.ReplaceAllLiteralString(urlString, "https://")` with
`reScheme = ^[\w+]+://` — if the string starts with a nonempty `[\w+]` run
followed by `://`, that scheme prefix is replaced by `https://`. -/
def replaceSchemeWithHTTPS (s : List Char) : List Char :=
  match takeWordRun s with
  | ([], _) => s
  | (_ :: _, ':' :: '/' :: '/' :: rest) => httpsChars ++ rest
  | (_, _) => s

/-- Source: `strings.HasPrefix(urlString, "https://")`. -/
def startsWithHTTPS : List Char → Bool
  | 'h' :: 't' :: 't' :: 'p' :: 's' :: ':' :: '/' :: '/' :: _ => true
  | _ => false

/-- Source: `strings.Replace(urlString, ":", "/", 1)` — rewrite the first
colon, if any, to a slash. -/
def replaceFirstColon : List Char → List Char
  | [] => []
  | c :: cs => if c = ':' then '/' :: cs else c :: replaceFirstColon cs

/-- Source: `strings.TrimSuffix(urlString, ".git")`. -/
def trimDotGit (s : List Char) : List Char :=
  match s.reverse with
  | 't' :: 'i' :: 'g' :: '.' :: rest => rest.reverse
  | _ => s

/-- Split at the first `/`: (authority, path-with-leading-slash). -/
def splitAuthority : List Char → List Char × List Char
  | [] => ([], [])
  | c :: cs =>
    if c = '/' then ([], c :: cs)
    else
      let p := splitAuthority cs
      (c :: p.1, p.2)

/-- The part of `l` strictly after the last occurrence of `target`
(net/url splits userinfo from host at the LAST `@`, and takes the port
from the LAST colon); `l` itself if `target` is absent. -/
def afterLastChar (target : Char) (l : List Char) : List Char :=
  (l.reverse.takeWhile (fun c => c ≠ target)).reverse

/-- The part of `l` strictly before the last occurrence of `target`
(net/url's userinfo is `authority[:strings.LastIndex(authority, "@")]`). -/
def beforeLastChar (target : Char) (l : List Char) : List Char :=
  ((l.reverse.dropWhile (fun c => c ≠ target)).drop 1).reverse

/-- Go's `validOptionalPort`: the colon-port after the host is empty, or a
colon followed by digits only. -/
def validOptionalPort : List Char → Bool
  | [] => true
  | ':' :: ds => ds.all (fun c => c.isDigit)
  | _ => false

/-- Go's `stringContainsCTLByte` test for one character: an ASCII control
byte (below 0x20, or 0x7f).  Characters at 0x80 and above encode to bytes
0x80 and above, so the byte-level and character-level tests agree. -/
def isCTLChar (c : Char) : Bool :=
  decide (c.toNat < 32 ∨ c.toNat = 127)

/-- Go's `ishex`: an ASCII hexadecimal digit. -/
def isHexDigit (c : Char) : Bool :=
  c.isDigit || (decide ('a' ≤ c) && decide (c ≤ 'f')) || (decide ('A' ≤ c) && decide (c ≤ 'F'))

/-- Go's `unhex`: the value of a hexadecimal digit (only ever applied to
characters that pass `isHexDigit`). -/
def hexDigitVal (c : Char) : Nat :=
  if c.isDigit then c.toNat - 48
  else if decide ('a' ≤ c) && decide (c ≤ 'f') then c.toNat - 87
  else c.toNat - 55

/-- Go's `unescape`: decode `%XX` escapes, failing (`none`, Go's
`EscapeError`) on a `%` not followed by two hex digits.  With `hostMode`
(Go's `encodeHost`), an escaped ASCII byte (first hex digit below 8) other
than the literal `%25` is rejected, Go's `HostError` — hosts may only
%-encode non-ASCII bytes.  Decoded non-ASCII bytes are represented as the
corresponding code points (Go works on raw bytes); this never changes
which characters equal `/`, so path-field counts agree with Go. -/
def unescape (hostMode : Bool) : List Char → Option (List Char)
  | [] => some []
  | '%' :: a :: b :: rest =>
    if isHexDigit a && isHexDigit b then
      if hostMode && decide (hexDigitVal a < 8) &&
          !(decide (a = '2') && decide (b = '5')) then
        Option.none
      else
        match unescape hostMode rest with
        | some t => some (Char.ofNat (16 * hexDigitVal a + hexDigitVal b) :: t)
        | Option.none => Option.none
    else Option.none
  | '%' :: _ => Option.none
  | c :: rest =>
    match unescape hostMode rest with
    | some t => some (c :: t)
    | Option.none => Option.none

/-- Go's `validUserinfo`: every character of the userinfo is a letter, a
digit, or one of the punctuation characters RFC 3986 allows there (the
apostrophe, code 39, is written via its code).  Any other character —
including any non-ASCII one — is rejected. -/
def isUserinfoChar (c : Char) : Bool :=
  c.isAlphanum ||
  c = '-' || c = '.' || c = '_' || c = ':' || c = '~' || c = '!' || c = '$' ||
  c = '&' || decide (c.toNat = 39) || c = '(' || c = ')' || c = '*' || c = '+' ||
  c = ',' || c = ';' || c = '=' || c = '%' || c = '@'

/-- Go's `parseHost` on the host[:port] part of the authority: a host in
brackets (an IP literal) needs a closing bracket and a valid optional
port after it; otherwise, if the host contains a colon, the part from the
last colon must be a valid optional port; finally the whole host is
unescaped under the host rules.  (An IPv6 zone after `%25` is unescaped
here under the host rules rather than Go's marginally laxer zone rules —
the `%25` itself decodes identically.) -/
def parseHost (hostport : List Char) : Except String (List Char) :=
  match hostport with
  | '[' :: _ =>
    if hostport.contains ']' then
      if validOptionalPort (afterLastChar ']' hostport) then
        match unescape true hostport with
        | some h => Except.ok h
        | Option.none => Except.error "invalid host escape"
      else Except.error "invalid port after host"
    else Except.error "missing bracket in host"
  | _ =>
    if hostport.contains ':' then
      if validOptionalPort (':' :: afterLastChar ':' hostport) then
        match unescape true hostport with
        | some h => Except.ok h
        | Option.none => Except.error "invalid host escape"
      else Except.error "invalid port after host"
    else
      match unescape true hostport with
      | some h => Except.ok h
      | Option.none => Except.error "invalid host escape"

/-- The parsed URL fields the program reads (net/url's `url.URL`): `host`
is the host[:port] after userinfo, `path` the part from the first slash. -/
structure GoURL where
  host : String
  path : String
deriving DecidableEq

/-- Model of net/url's `url.Parse` for the `https://...` strings
normalization produces, following Go's `Parse`/`parse` step for step: cut
the fragment at the first `#` (a non-empty fragment must unescape, Go's
`setFragment`); reject ASCII control characters in the fragment-stripped
URL; cut the query at the first `?` after the scheme; the authority runs
to the next `/`; userinfo, split off at the LAST `@`, must pass
`validUserinfo` and unescape; the host[:port] goes through `parseHost`
(bracketed IP literals, port validation, host escapes); the path is
unescaped (so `%2F` decodes to `/` and contributes to the path's
slash-fields, as in Go).  The query and fragment themselves are dropped
from the result, as the program reads only `Host` and `Path`. -/
def parseHTTPSURL (s : List Char) : Except String GoURL :=
  let beforeFrag := s.takeWhile (fun c => c ≠ '#')
  let frag := (s.dropWhile (fun c => c ≠ '#')).drop 1
  if beforeFrag.any isCTLChar then
    Except.error "invalid control character in URL"
  else if frag ≠ [] && (unescape false frag).isNone then
    Except.error "invalid URL escape in fragment"
  else
    match beforeFrag with
    | 'h' :: 't' :: 't' :: 'p' :: 's' :: ':' :: '/' :: '/' :: rest =>
      let beforeQuery := rest.takeWhile (fun c => c ≠ '?')
      let p := splitAuthority beforeQuery
      let authority := p.1
      let hostport := afterLastChar '@' authority
      let userinfo := beforeLastChar '@' authority
      if authority.contains '@' && !userinfo.all isUserinfoChar then
        Except.error "invalid userinfo"
      else if authority.contains '@' && (unescape false userinfo).isNone then
        Except.error "invalid URL escape in user"
      else
        match parseHost hostport with
        | Except.error e => Except.error e
        | Except.ok host =>
          match unescape false p.2 with
          | some path => Except.ok ⟨String.mk host, String.mk path⟩
          | Option.none => Except.error "invalid URL escape in path"
    | _ => Except.error "parse: unsupported scheme"

/-- Source: `normalizeURL` — replace any `scheme://` with `https://`; if
the result still lacks the `https://` prefix (an SSH-style `host:path`
remote), rewrite the first colon to a slash and prepend `https://`; strip
a trailing `.git`; parse as a URL. -/
def normalizeURL (urlString : String) : Except String GoURL :=
  let s1 := replaceSchemeWithHTTPS urlString.toList
  let s2 := if startsWithHTTPS s1 then s1 else httpsChars ++ replaceFirstColon s1
  parseHTTPSURL (trimDotGit s2)

/-- Source: `strings.Split(s, "/")` — split around every slash, keeping
empty fields; the empty string yields one empty field. -/
def splitOnSlashChars : List Char → List (List Char)
  | [] => [[]]
  | c :: cs =>
    if c = '/' then [] :: splitOnSlashChars cs
    else
      match splitOnSlashChars cs with
      | [] => [[c]]
      | w :: ws => (c :: w) :: ws

/-- String wrapper for `splitOnSlashChars`. -/
def splitOnSlash (s : String) : List String :=
  (splitOnSlashChars s.toList).map String.mk

/-- The host/owner/repo triple addressed by the remote API (spec's
RemoteIdentity; the source binds `user := parts[1]; repo := parts[2]`). -/
structure RemoteIdentity where
  host : String
  user : String
  repo : String
deriving DecidableEq

/-- The two fatal identity-resolution errors, each echoing the value the
source interpolates into its message (`"Error while parsing URL: %s"`,
`"Could not parse: %q"` with the normalized URL). -/
inductive ResolveError where
  | parseError (msg : String)
  | tooFewSegments (u : GoURL)
deriving DecidableEq

/-- Source: `main`, the remote-identity block — normalize the origin URL,
die on a parse error, split the path on `/`, die when fewer than three
fields result, and take fields 1 and 2 as user and repo. -/
def resolveIdentity (raw : String) : Except ResolveError RemoteIdentity :=
  match normalizeURL raw with
  | Except.error e => Except.error (ResolveError.parseError e)
  | Except.ok u =>
    let parts := splitOnSlash u.path
    if parts.length < 3 then Except.error (ResolveError.tooFewSegments u)
    else Except.ok ⟨u.host, parts.getD 1 "", parts.getD 2 ""⟩

/-- What one run observes of the cache file (source: `restoreState`):
the file may be absent (`os.IsNotExist`), opening it may fail for another
reason, or it is readable, in which case its bytes either decode to a
state or fail to decode.  JSON decoding itself is the stdlib collaborator,
so its outcome is the input here. -/
inductive CacheFileRead where
  | notExist
  | openError (msg : String)
  | content (decoded : Option persistentState)
deriving DecidableEq

/-- Source: `restoreState` — open the cache file; when the file does not
exist, return the zero-value (empty) state; die on any other open error;
otherwise decode into the state, DISCARDING the decoder's error value
(`json.NewDecoder(cacheFile).Decode(&state)` with no error check), so
undecodable content leaves the zero-value state in place.
`Except.error` models `die` (message to stderr, exit 1). -/
def restoreState : CacheFileRead → Except String persistentState
  | CacheFileRead.notExist => Except.ok ⟨Option.none⟩
  | CacheFileRead.openError msg => Except.error msg
  | CacheFileRead.content decoded => Except.ok (decoded.getD ⟨Option.none⟩)

/-- A netrc machine record, as go-netrc returns it: `FindMachine` yields
the entry whose machine name matches, or the catch-all `default` entry
(whose `Name` is empty), or nothing. -/
structure NetrcMachine where
  name : String
  password : String
deriving DecidableEq

/-- The ambient inputs of `retrieveAPIToken`: the environment variable
(empty when unset, as `os.Getenv` reports), whether `osUser.Current()`
succeeds, whether `~/.netrc` stats, the netrc lookup itself, and the value
`git config --get-urlmatch github.token <url>` prints (git is the spec's
black-box collaborator supplying config outputs). -/
structure CredEnv where
  envToken : String
  userAvailable : Bool
  netrcExists : Bool
  findMachine : String → Option NetrcMachine
  gitConfigToken : String

/-- Source: `retrieveAPIToken` — try the `GITHUB_COMMIT_STATUS_MARK_TOKEN`
environment variable; if empty and the current user and `~/.netrc` exist,
look up the machine for the remote host (with `github.com` translated to
`api.github.com`) and take its password unless it is the nameless
`default` entry; if still empty, fall back to git's URL-matched
`github.token` config value. -/
def retrieveAPIToken (env : CredEnv) (remoteURL : GoURL) : String :=
  let token := env.envToken
  let token :=
    if token = "" then
      if env.userAvailable then
        if env.netrcExists then
          let apiHost := if remoteURL.host = "github.com" then "api.github.com" else remoteURL.host
          match env.findMachine apiHost with
          | some machine => if machine.name ≠ "" then machine.password else token
          | Option.none => token
        else token
      else token
    else token
  if token = "" then env.gitConfigToken else token

/-- C1: for a cached entry, `isValid` is true whenever the status has an
infinite TTL (failure, success), for any `now`, in particular any
`now ≥ lastModified`; for the finite-TTL statuses it is true exactly when
`now < lastModified + ttl`, with a 10-second TTL for pending and a
30-second TTL for the unknown/absent (empty) status — so it is false at
exactly `lastModified + ttl` and at every later time. -/
theorem isValid_spec (entry : revisionEntry) (now : Int) :
    ((entry.Status = statusFailure ∨ entry.Status = statusSuccess) → isValid entry now = true) ∧
    (entry.Status = statusPending →
      (isValid entry now = true ↔ now < entry.LastModified + 10)) ∧
    (entry.Status = statusUnknown →
      (isValid entry now = true ↔ now < entry.LastModified + 30)) := by
  obtain ⟨s, lm⟩ := entry
  refine ⟨?_, ?_, ?_⟩
  · rintro (h | h) <;> (simp only at h; subst h; rfl)
  · intro h; simp only at h; subst h
    show (decide ((10 : Int) = forever) || decide (now < lm + 10)) = true ↔ now < lm + 10
    simp [forever]
  · intro h; simp only at h; subst h
    show (decide ((30 : Int) = forever) || decide (now < lm + 30)) = true ↔ now < lm + 30
    simp [forever]

/-- C1 witness: concrete instances — a far-future success entry is still
valid; a pending entry is valid exactly within its 10-second window; an
empty-status entry exactly within its 30-second window. -/
theorem isValid_spec_witness :
    isValid ⟨statusSuccess, 0⟩ 1000000 = true ∧
    (isValid ⟨statusPending, 0⟩ 10 = true ↔ (10 : Int) < 0 + 10) ∧
    (isValid ⟨statusUnknown, 0⟩ 29 = true ↔ (29 : Int) < 0 + 30) :=
  ⟨(isValid_spec ⟨statusSuccess, 0⟩ 1000000).1 (Or.inr rfl),
   (isValid_spec ⟨statusPending, 0⟩ 10).2.1 rfl,
   (isValid_spec ⟨statusUnknown, 0⟩ 29).2.2 rfl⟩

/-- C2 counterexample: a cache file that is present but whose content does
not decode (a corrupt file) makes `restoreState` return the empty state —
it does not fail fatally, contradicting the claim that any read or parse
error other than nonexistence is fatal. -/
theorem restoreState_corrupt_not_fatal :
    restoreState (CacheFileRead.content Option.none) = Except.ok ⟨Option.none⟩ :=
  rfl

/-- C2 amended: `restoreState` returns the empty state when the cache file
does not exist, fails fatally on any other OPEN error, and silently
degrades to the zero-value (empty) state when the file is present but its
content fails to decode; decodable content yields the decoded state. -/
theorem restoreState_spec :
    restoreState CacheFileRead.notExist = Except.ok ⟨Option.none⟩ ∧
    (∀ msg, restoreState (CacheFileRead.openError msg) = Except.error msg) ∧
    restoreState (CacheFileRead.content Option.none) = Except.ok ⟨Option.none⟩ ∧
    (∀ st, restoreState (CacheFileRead.content (some st)) = Except.ok st) :=
  ⟨rfl, fun _ => rfl, rfl, fun _ => rfl⟩

/-- C5: token sources are tried in strict priority order, first non-empty
value wins — (1) the environment variable beats everything, even a present
netrc entry; (2) with the variable unset, an exact netrc machine match for
the API host (`github.com` translated to `api.github.com`) with a
non-empty name and password supplies the token; (3) a nameless `default`
netrc entry is ignored and git's URL-matched config is used instead, as it
is when no machine matches at all; and with every source empty the result
is the empty string (no auth), not an error. -/
theorem retrieveAPIToken_priority (env : CredEnv) (u : GoURL) :
    (env.envToken ≠ "" → retrieveAPIToken env u = env.envToken) ∧
    (∀ machine, env.envToken = "" → env.userAvailable = true → env.netrcExists = true →
      env.findMachine (if u.host = "github.com" then "api.github.com" else u.host) =
        some machine →
      machine.name ≠ "" → machine.password ≠ "" →
      retrieveAPIToken env u = machine.password) ∧
    (∀ pw, env.envToken = "" → env.userAvailable = true → env.netrcExists = true →
      env.findMachine (if u.host = "github.com" then "api.github.com" else u.host) =
        some ⟨"", pw⟩ →
      retrieveAPIToken env u = env.gitConfigToken) ∧
    (env.envToken = "" →
      env.findMachine (if u.host = "github.com" then "api.github.com" else u.host) =
        Option.none →
      retrieveAPIToken env u = env.gitConfigToken) := by
  refine ⟨?_, ?_, ?_, ?_⟩
  · intro h
    simp [retrieveAPIToken, h]
  · intro machine h hu hn hf hname hpw
    simp [retrieveAPIToken, h, hu, hn, hf, hname, hpw]
  · intro pw h hu hn hf
    simp [retrieveAPIToken, h, hu, hn, hf]
  · intro h hf
    cases hu : env.userAvailable <;> cases hn : env.netrcExists <;>
      simp [retrieveAPIToken, h, hu, hn, hf]

/-- C5 witness: with both the environment variable and a matching netrc
entry for `api.github.com` present, the environment variable's value is
the one returned. -/
theorem retrieveAPIToken_priority_witness :
    retrieveAPIToken
      ⟨"ENVTOK", true, true,
        fun h => if h = "api.github.com" then some ⟨"api.github.com", "NETRCTOK"⟩ else Option.none,
        "CFGTOK"⟩
      ⟨"github.com", "/owner/repo"⟩ = "ENVTOK" :=
  (retrieveAPIToken_priority
      ⟨"ENVTOK", true, true,
        fun h => if h = "api.github.com" then some ⟨"api.github.com", "NETRCTOK"⟩ else Option.none,
        "CFGTOK"⟩
      ⟨"github.com", "/owner/repo"⟩).1 (by decide)

/-- C6: normalizing the SSH-style remote `git@github.com:owner/repo.git`
succeeds — the first colon becomes a slash, `https://` is prepended, the
trailing `.git` is stripped — and the result has host `github.com`, path
`/owner/repo`, whose first two segments give owner `owner`, repo `repo`. -/
theorem normalizeURL_ssh_form :
    normalizeURL "git@github.com:owner/repo.git" =
      Except.ok ⟨"github.com", "/owner/repo"⟩ ∧
    resolveIdentity "git@github.com:owner/repo.git" =
      Except.ok ⟨"github.com", "owner", "repo"⟩ :=
  ⟨rfl, rfl⟩

/-- Source: `printStatus` — look up the status's configuration (falling
back to the unknown policy) and print its mark in its color; modelled as
the (mark, color) pair that reaches the terminal. -/
def printStatus (status : String) : String × Color :=
  let conf := statusConfOf status
  (conf.mark, conf.color)

/-- The two CLI flags (source: `flag.Bool("cached", ...)`,
`flag.Bool("update", ...)`). -/
structure Flags where
  useCache : Bool
  updateCache : Bool

/-- Source: `thisStatus.Status` construction — the first status record's
state, or `""` when the remote returns no records
(`if len(statuses) > 0 { thisStatus.Status = *statuses[0].State }`). -/
def firstState : List String → String
  | [] => ""
  | s :: _ => s

/-- The observable outcome of one program run: what glyph (and color) is
printed, the exit code, whether the remote status API was queried, and
the state written back to the cache file (`none` = no write). -/
structure RunResult where
  output : Option (String × Color)
  exitCode : Nat
  fetched : Bool
  saved : Option persistentState
deriving DecidableEq

/-- Source: `main` of the program, as a function of its run inputs — the
parsed flags, the `rev-parse`-resolved revision hash, the state restored
from the cache file, the current Unix time, the `remote.origin.url` git
reports, and the remote API's answer (the `state` fields of the status
records, or the request's error).  Client construction (token, enterprise
base URL, TLS) affects only how the request is made, not which of these
outcomes is reached, so it is not part of the outcome record. -/
def mainRun (flags : Flags) (rev : String) (state : persistentState) (now : Int)
    (remoteOriginURL : String) (fetchResult : Except String (List String)) : RunResult :=
  let cachedRevisionEntry := lookupRevision state.Revisions rev
  let useCache :=
    if flags.updateCache then false
    else if isValid cachedRevisionEntry now then true
    else flags.useCache
  if useCache then
    { output := some (printStatus cachedRevisionEntry.Status), exitCode := 0,
      fetched := false, saved := Option.none }
  else
    match resolveIdentity remoteOriginURL with
    | Except.error _ =>
      { output := Option.none, exitCode := 1, fetched := false, saved := Option.none }
    | Except.ok _ =>
      match fetchResult with
      | Except.error _ =>
        { output := Option.none, exitCode := 1, fetched := true, saved := Option.none }
      | Except.ok statuses =>
        let thisStatus : revisionEntry := ⟨firstState statuses, now⟩
        { output := some (printStatus thisStatus.Status), exitCode := 0, fetched := true,
          saved := some ⟨some (insertRevision (revisionsList state) rev thisStatus)⟩ }

/-- Helper: with `--update` set and the live path's collaborators
succeeding, the run reaches the fetch and saves the fetched entry. -/
theorem mainRun_update_aux (flags : Flags) (rev : String) (state : persistentState)
    (now : Int) (raw : String) (fetch : Except String (List String))
    (ident : RemoteIdentity) (statuses : List String)
    (hupd : flags.updateCache = true)
    (hid : resolveIdentity raw = Except.ok ident)
    (hfetch : fetch = Except.ok statuses) :
    mainRun flags rev state now raw fetch =
      { output := some (printStatus (firstState statuses)), exitCode := 0, fetched := true,
        saved := some ⟨some (insertRevision (revisionsList state) rev
          ⟨firstState statuses, now⟩)⟩ } := by
  unfold mainRun
  rw [hupd, hid, hfetch]
  rfl

/-- C3: on the cache-hit path — `--update` not set, and the cached entry
valid or `--cached` set — the run prints the cached status's glyph and
color, exits 0, performs no remote fetch, and writes nothing back to the
cache file. -/
theorem mainRun_cacheHit (flags : Flags) (rev : String) (state : persistentState)
    (now : Int) (raw : String) (fetch : Except String (List String))
    (hupd : flags.updateCache = false)
    (hhit : flags.useCache = true ∨ isValid (lookupRevision state.Revisions rev) now = true) :
    mainRun flags rev state now raw fetch =
      { output := some (printStatus (lookupRevision state.Revisions rev).Status),
        exitCode := 0, fetched := false, saved := Option.none } := by
  rcases hhit with h | h <;> simp [mainRun, hupd, h]

/-- C3 witness: with `--cached` set, an empty loaded state, and even an
erroring remote, the run prints the unknown glyph, exits 0, does not
fetch, and saves nothing. -/
theorem mainRun_cacheHit_witness :
    mainRun ⟨true, false⟩ "abc" ⟨Option.none⟩ 0 "u" (Except.error "e") =
      { output := some ("?", Color.none), exitCode := 0,
        fetched := false, saved := Option.none } :=
  mainRun_cacheHit ⟨true, false⟩ "abc" ⟨Option.none⟩ 0 "u" (Except.error "e") rfl (Or.inl rfl)

/-- C4: whenever `--update` is set (and the live path's collaborators —
URL normalization and the remote API — succeed), the remote IS queried,
whatever the cached entry's freshness, and the fetched result overwrites
the cached entry for the resolved revision in the saved state. -/
theorem mainRun_update_forces_fetch (flags : Flags) (rev : String) (state : persistentState)
    (now : Int) (raw : String) (fetch : Except String (List String))
    (ident : RemoteIdentity) (statuses : List String)
    (hupd : flags.updateCache = true)
    (hid : resolveIdentity raw = Except.ok ident)
    (hfetch : fetch = Except.ok statuses) :
    (mainRun flags rev state now raw fetch).fetched = true ∧
    (mainRun flags rev state now raw fetch).saved =
      some ⟨some (insertRevision (revisionsList state) rev ⟨firstState statuses, now⟩)⟩ := by
  rw [mainRun_update_aux flags rev state now raw fetch ident statuses hupd hid hfetch]
  exact ⟨rfl, rfl⟩

/-- C4 witness: `--update` with a fresh infinite-TTL `success` entry for
the same revision: the remote is queried anyway and the entry is
overwritten with the freshly fetched `pending` status. -/
theorem mainRun_update_forces_fetch_witness :
    (mainRun ⟨false, true⟩ "abc123" ⟨some [("abc123", ⟨"success", 100⟩)]⟩ 100
        "https://github.com/motemen/test" (Except.ok ["pending"])).fetched = true ∧
    (mainRun ⟨false, true⟩ "abc123" ⟨some [("abc123", ⟨"success", 100⟩)]⟩ 100
        "https://github.com/motemen/test" (Except.ok ["pending"])).saved =
      some ⟨some [("abc123", ⟨"pending", 100⟩)]⟩ :=
  mainRun_update_forces_fetch ⟨false, true⟩ "abc123" ⟨some [("abc123", ⟨"success", 100⟩)]⟩ 100
    "https://github.com/motemen/test" (Except.ok ["pending"])
    ⟨"github.com", "motemen", "test"⟩ ["pending"] rfl rfl rfl

/-- C8: every status string outside the recognized four (empty/unknown,
failure, pending, success) falls back to the unknown policy — it renders
as the `?` glyph with no color, its TTL is 30 seconds, and the validity
check applies exactly the 30-second window. -/
theorem unknownStatus_fallback (status : String)
    (h1 : status ≠ statusUnknown) (h2 : status ≠ statusFailure)
    (h3 : status ≠ statusPending) (h4 : status ≠ statusSuccess) :
    printStatus status = ("?", Color.none) ∧
    (statusConfOf status).cacheFor = 30 ∧
    ∀ lm now : Int, (isValid ⟨status, lm⟩ now = true ↔ now < lm + 30) := by
  have hconf : statusConfOf status = ⟨"?", Color.none, 30⟩ := by
    unfold statusConfOf statusConfiguration
    simp [h1, h2, h3, h4]
  refine ⟨?_, ?_, ?_⟩
  · simp [printStatus, hconf]
  · rw [hconf]
  · intro lm now
    simp [isValid, hconf, forever]

/-- C8 witness: the unrecognized status string `"error"` (loaded from a
cache file) renders as `?`, carries the 30-second TTL, and is validity
checked against that window. -/
theorem unknownStatus_fallback_witness :
    printStatus "error" = ("?", Color.none) ∧
    (statusConfOf "error").cacheFor = 30 ∧
    (isValid ⟨"error", 0⟩ 29 = true ↔ (29 : Int) < 0 + 30) := by
  have h := unknownStatus_fallback "error" (by decide) (by decide) (by decide) (by decide)
  exact ⟨h.1, h.2.1, h.2.2 0 29⟩

/-- Helper: looking up a key other than the inserted one is unchanged by
`insertRevision`. -/
theorem lookup_insertRevision_ne (l : List (String × revisionEntry)) (rev k : String)
    (v : revisionEntry) (h : k ≠ rev) :
    List.lookup k (insertRevision l rev v) = List.lookup k l := by
  have hbeq : (k == rev) = false := beq_eq_false_iff_ne.mpr h
  induction l with
  | nil => simp [insertRevision, List.lookup, hbeq]
  | cons hd tl ih =>
    obtain ⟨k', v'⟩ := hd
    by_cases hk : k' = rev
    · subst hk
      simp [insertRevision, List.lookup, hbeq]
    · simp [insertRevision, hk, List.lookup, ih]

/-- Helper: the saved state of a run is either nothing or the loaded
state's map with exactly the resolved revision's entry replaced. -/
theorem mainRun_saved_shape (flags : Flags) (rev : String) (state : persistentState)
    (now : Int) (raw : String) (fetch : Except String (List String)) :
    (mainRun flags rev state now raw fetch).saved = Option.none ∨
    ∃ statuses, (mainRun flags rev state now raw fetch).saved =
      some ⟨some (insertRevision (revisionsList state) rev ⟨firstState statuses, now⟩)⟩ := by
  obtain ⟨uc, upd⟩ := flags
  cases upd <;> cases uc <;>
    cases hv : isValid (lookupRevision state.Revisions rev) now <;>
      cases hres : resolveIdentity raw <;> cases fetch <;>
        simp [mainRun, hv, hres] <;> exact ⟨_, rfl⟩

/-- C9: the persistent state is mutated at most once — whenever the run
writes a state back, every revision key other than the resolved one maps
to exactly the entry it had in the loaded state. -/
theorem mainRun_frame (flags : Flags) (rev : String) (state : persistentState)
    (now : Int) (raw : String) (fetch : Except String (List String))
    (s' : persistentState) (k : String)
    (hsaved : (mainRun flags rev state now raw fetch).saved = some s')
    (hk : k ≠ rev) :
    lookupRevision s'.Revisions k = lookupRevision state.Revisions k := by
  rcases mainRun_saved_shape flags rev state now raw fetch with h | ⟨statuses, h⟩
  · rw [h] at hsaved
    exact absurd hsaved (by simp)
  · rw [h] at hsaved
    injection hsaved with h'
    subst h'
    have hbeq : (k == rev) = false := beq_eq_false_iff_ne.mpr hk
    cases hrev : state.Revisions with
    | none => simp [revisionsList, hrev, lookupRevision, insertRevision, List.lookup, hbeq]
    | some l => simp [revisionsList, hrev, lookupRevision, lookup_insertRevision_ne l rev k _ hk]

/-- C9 witness: a live run that overwrites revision `abc` leaves the entry
of the other cached revision `other` untouched in the saved state. -/
theorem mainRun_frame_witness :
    lookupRevision
        ((⟨some [("other", ⟨"pending", 3⟩), ("abc", ⟨"success", 50⟩)]⟩ :
          persistentState)).Revisions "other" =
      lookupRevision ((⟨some [("other", ⟨"pending", 3⟩)]⟩ : persistentState)).Revisions
        "other" :=
  mainRun_frame ⟨false, true⟩ "abc" ⟨some [("other", ⟨"pending", 3⟩)]⟩ 50
    "https://github.com/motemen/test" (Except.ok ["success"])
    ⟨some [("other", ⟨"pending", 3⟩), ("abc", ⟨"success", 50⟩)]⟩ "other" rfl (by decide)

/-- C10: with `--cached` AND `--update` both set, `--update` wins: the
cached value is not used — the remote is queried (whatever the cache
holds and however fresh it is), the freshly fetched status is the one
rendered, and it overwrites the cached entry in the saved state. -/
theorem mainRun_cached_and_update (rev : String) (state : persistentState) (now : Int)
    (raw : String) (fetch : Except String (List String)) (ident : RemoteIdentity)
    (statuses : List String)
    (hid : resolveIdentity raw = Except.ok ident)
    (hfetch : fetch = Except.ok statuses) :
    (mainRun ⟨true, true⟩ rev state now raw fetch).fetched = true ∧
    (mainRun ⟨true, true⟩ rev state now raw fetch).output =
      some (printStatus (firstState statuses)) ∧
    (mainRun ⟨true, true⟩ rev state now raw fetch).saved =
      some ⟨some (insertRevision (revisionsList state) rev ⟨firstState statuses, now⟩)⟩ := by
  rw [mainRun_update_aux ⟨true, true⟩ rev state now raw fetch ident statuses rfl hid hfetch]
  exact ⟨rfl, rfl, rfl⟩

/-- C10 witness: both flags set with a fresh `pending` entry still inside
its 10-second window: the remote is queried anyway, the fetched `success`
is rendered, and the cached entry is overwritten. -/
theorem mainRun_cached_and_update_witness :
    (mainRun ⟨true, true⟩ "abc" ⟨some [("abc", ⟨"pending", 95⟩)]⟩ 100
        "https://github.com/motemen/test" (Except.ok ["success"])).fetched = true ∧
    (mainRun ⟨true, true⟩ "abc" ⟨some [("abc", ⟨"pending", 95⟩)]⟩ 100
        "https://github.com/motemen/test" (Except.ok ["success"])).output =
      some ("✓", Color.green) ∧
    (mainRun ⟨true, true⟩ "abc" ⟨some [("abc", ⟨"pending", 95⟩)]⟩ 100
        "https://github.com/motemen/test" (Except.ok ["success"])).saved =
      some ⟨some [("abc", ⟨"success", 100⟩)]⟩ :=
  mainRun_cached_and_update "abc" ⟨some [("abc", ⟨"pending", 95⟩)]⟩ 100
    "https://github.com/motemen/test" (Except.ok ["success"])
    ⟨"github.com", "motemen", "test"⟩ ["success"] rfl rfl
